import Mathlib

/-!
Verification development for the frete-yampi backend.

Shallow embedding of the core of the repository:
- `verifyProxy.js` : `verifyShopifyProxy` (App-Proxy signature check);
- `yampiCatalog.js` : `YampiSkuMap` (`getId`, the seed load of `bootstrap`,
  and the paginated `hydrateOnce`);
- the in-memory quote cache (`getFromCache` / `setCache`);
- `yampi.js` : `calcularFreteYampi` (upstream quote call);
- the `app.all(proxyPath)` request handler (`proxyHandler`).

Modelling conventions, chosen so every definition is kernel-executable:
- JS `Map` objects and plain objects are association lists with unique keys
  (`mset` replaces any previous binding, `mget` returns the first);
- JS numbers that the code treats as integers are `Int` (ids) or `Nat`
  (timestamps, page numbers); `NaN` is outside the model;
- the HMAC-SHA256 hex digest is an abstract parameter
  `hmac : String → String → String` (secret → message → lowercase hex digest);
- string operations (`trim`, `toUpperCase`, `toLowerCase`, `replace(/\D/g)`,
  default `Array.sort`) are re-implemented on `List Char` with the same
  behaviour as JS on ASCII data;
- a thrown JS exception is `Except.error` carrying the message; the upstream
  HTTP responses consumed by `hydrateOnce` and by the handler are explicit
  inputs of the functions.
-/

namespace FreteYampi

/-- First binding for a key in an association list (JS `Map.get` /
object indexing; `none` is JS `undefined`). -/
def mget {κ β : Type} [DecidableEq κ] (k : κ) : List (κ × β) → Option β
  | [] => none
  | kv :: rest => if kv.1 = k then some kv.2 else mget k rest

/-- Remove every binding for a key (JS `Map.delete`). -/
def mdel {κ β : Type} [DecidableEq κ] (k : κ) : List (κ × β) → List (κ × β)
  | [] => []
  | kv :: rest => if kv.1 = k then mdel k rest else kv :: mdel k rest

/-- JS `Map.set`: bind `k` to `v`, replacing any previous binding. -/
def mset {κ β : Type} [DecidableEq κ] (k : κ) (v : β) (m : List (κ × β)) : List (κ × β) :=
  (k, v) :: mdel k m

/-- ASCII whitespace, the part of JS `String.prototype.trim` relevant here. -/
def isWS (c : Char) : Bool := c = ' ' || c = '\t' || c = '\n' || c = '\r'

/-- JS `String.prototype.trim` (on ASCII whitespace). -/
def jsTrim (s : String) : String :=
  String.mk (((s.data.dropWhile isWS).reverse.dropWhile isWS).reverse)

/-- ASCII upper-casing of one character, as JS `toUpperCase` acts on ASCII. -/
def upChar (c : Char) : Char :=
  if 'a' ≤ c ∧ c ≤ 'z' then Char.ofNat (c.toNat - 32) else c

/-- ASCII lower-casing of one character, as JS `toLowerCase` acts on ASCII. -/
def downChar (c : Char) : Char :=
  if 'A' ≤ c ∧ c ≤ 'Z' then Char.ofNat (c.toNat + 32) else c

/-- JS `String.prototype.toUpperCase` (ASCII). -/
def jsToUpper (s : String) : String := String.mk (s.data.map upChar)

/-- JS `String.prototype.toLowerCase` (ASCII). -/
def jsToLower (s : String) : String := String.mk (s.data.map downChar)

/-- Code-unit-wise `≤` on strings, the order used by default JS `Array.sort`. -/
def charsLe : List Char → List Char → Bool
  | [], _ => true
  | _ :: _, [] => false
  | a :: as, b :: bs =>
    if a.toNat < b.toNat then true
    else if a.toNat = b.toNat then charsLe as bs
    else false

/-- String comparison for `sortStrings`. -/
def strLe (a b : String) : Bool := charsLe a.data b.data

/-- Insert a string into an already sorted list (stable). -/
def insertSorted (x : String) : List String → List String
  | [] => [x]
  | y :: ys => if strLe x y then x :: y :: ys else y :: insertSorted x ys

/-- Default JS `Array.prototype.sort` on strings: byte-wise ascending. -/
def sortStrings (l : List String) : List String := l.foldr insertSorted []

/-- JS `str.replace(/\D/g, '')`: keep only the decimal digits. -/
def digitsOf (s : String) : String := String.mk (s.data.filter Char.isDigit)

/-- JS `Number(s)` on an all-digits string. -/
def parseNat (s : String) : Nat := s.data.foldl (fun n c => n * 10 + (c.toNat - 48)) 0

/-- JS `/^\d+$/.test(s)`: non-empty and all decimal digits. -/
def isAllDigits (s : String) : Bool := s.data.all Char.isDigit && !s.data.isEmpty

/-! Section: signature verifier (`verifyProxy.js`, `verifyShopifyProxy`) -/

/-- The signed base string: remaining keys sorted ascending, each rendered as
`key=value`, concatenated with no separator — the `base` local of
`verifyShopifyProxy` (`Object.keys(params).sort().map(k => k + "=" + params[k]).join('')`). -/
def proxyBase (params : List (String × String)) : String :=
  String.join ((sortStrings (params.map (fun kv => kv.1))).map
    (fun k => k ++ "=" ++ ((mget k params).getD "")))

/-- Function `verifyShopifyProxy(query, secret)` from `verifyProxy.js`.
The JS falsiness checks `!secret` and `!signature` are the emptiness /
absence tests below; `hmac` abstracts `crypto.createHmac('sha256', secret)
.update(base).digest('hex')`. The function is total: it never throws. -/
def verifyShopifyProxy (hmac : String → String → String)
    (query : List (String × String)) (secret : String) : Bool :=
  if secret = "" then false
  else
    match mget "signature" query with
    | none => false
    | some sig =>
      if sig = "" then false
      else
        let params := query.filter (fun kv => kv.1 ≠ "signature")
        hmac secret (proxyBase params) == sig

/-! Section: catalog synchronizer (`yampiCatalog.js`, `YampiSkuMap`) -/

/-- The `sku_text -> sku_id` mapping (`this.map`). -/
abbrev SkuMap := List (String × Int)

/-- Method `YampiSkuMap.getId`: falsy (empty) input gives `undefined`; otherwise try
the trimmed key, then its upper-cased form, then its lower-cased form. -/
def getId (m : SkuMap) (skuText : String) : Option Int :=
  if skuText = "" then none
  else
    let key := jsTrim skuText
    ((mget key m).orElse (fun _ => mget (jsToUpper key) m)).orElse
      (fun _ => mget (jsToLower key) m)

/-- The triple write of `hydrateOnce`: `map.set(key, id)`,
`map.set(key.toUpperCase(), id)`, `map.set(key.toLowerCase(), id)`;
`key` is the already trimmed code. -/
def writeSku (m : SkuMap) (key : String) (id : Int) : SkuMap :=
  mset (jsToLower key) id (mset (jsToUpper key) id (mset key id m))

/-- A record of the list-form seed file (`{sku, id}`). -/
structure SeedRec where
  sku : String
  id : Int
  deriving DecidableEq

/-- The list-form branch of `bootstrap`'s seed load:
`if (r && r.sku && r.id) this.map.set(String(r.sku).trim(), Number(r.id))`.
Note: a single key is written, with truthiness checks on both fields. -/
def seedFromList (raw : List SeedRec) (m : SkuMap) : SkuMap :=
  raw.foldl (fun acc r => if r.sku ≠ "" ∧ r.id ≠ 0 then mset (jsTrim r.sku) r.id acc else acc) m

/-- The object-form branch of `bootstrap`'s seed load:
`for ([sku, id] of Object.entries(raw)) this.map.set(String(sku).trim(), Number(id))`.
No condition at all on the values. -/
def seedFromObj (raw : List (String × Int)) (m : SkuMap) : SkuMap :=
  raw.foldl (fun acc kv => mset (jsTrim kv.1) kv.2 acc) m

/-- One `skus` record of an upstream product (`s.sku`, `s.id`); `none` models
an absent / null field. -/
structure SkuRec where
  sku : Option String
  id : Option Int
  deriving DecidableEq

/-- One product of an upstream catalog page (after the
`(p?.skus?.data) || p?.skus || []` unwrapping). -/
structure Product where
  skus : List SkuRec
  deriving DecidableEq

/-- One upstream catalog page: `resp.data` and
`resp.meta.pagination.total_pages` (`none` when absent). -/
structure Page where
  data : List Product
  totalPages : Option Nat
  deriving DecidableEq

/-- The upstream pagination: the response (or thrown error) of
`yampiGet(... & page=P)` for each page number `P`. -/
abbrev FetchPages := Nat → Except String Page

/-- The acceptance test of `hydrateOnce`'s inner loop:
`if (s?.sku && s?.id != null)`; returns the trimmed key and the id. -/
def acceptSku (s : SkuRec) : Option (String × Int) :=
  match s.sku, s.id with
  | some code, some id => if code = "" then none else some (jsTrim code, id)
  | _, _ => none

/-- The `for (const s of skus)` loop body of `hydrateOnce`, threading the
map and the `total` counter. -/
def processSkus (acc : SkuMap × Nat) : List SkuRec → SkuMap × Nat
  | [] => acc
  | s :: rest =>
    match acceptSku s with
    | some ki => processSkus (writeSku acc.1 ki.1 ki.2, acc.2 + 1) rest
    | none => processSkus acc rest

/-- The `for (const p of list)` loop of `hydrateOnce` over one page. -/
def processProducts (acc : SkuMap × Nat) : List Product → SkuMap × Nat
  | [] => acc
  | p :: rest => processProducts (processSkus acc p.skus) rest

/-- Outcome of one `hydrateOnce` call: the map afterwards (also on failure —
the JS map is mutated in place), the returned count or thrown error, and the
number of page requests issued. -/
structure HydrateResult where
  map : SkuMap
  outcome : Except String Nat
  requests : Nat

/-- Computation `Number(resp?.meta?.pagination?.total_pages || page)`: an absent or zero
`total_pages` falls back to the current page number. -/
def pageTotalPages (page : Nat) (resp : Page) : Nat :=
  match resp.totalPages with
  | some tp => if tp = 0 then page else tp
  | none => page

/-- The `for (;;)` loop of `hydrateOnce`. `r` counts the loop iterations still
allowed by the `maxPages` cap: at the iteration for page `pageStart + k` the
JS break condition `page - pageStart + 1 >= maxPages` is exactly `r = 0` for
`r = (maxPages - 1) - k`, and the loop continues with `r - 1`. -/
def hydrateGo (fetch : FetchPages) (r page : Nat) (acc : SkuMap × Nat) (reqs : Nat) :
    HydrateResult :=
  match fetch page with
  | Except.error e => ⟨acc.1, Except.error e, reqs + 1⟩
  | Except.ok resp =>
    let acc' := processProducts acc resp.data
    match r with
    | 0 => ⟨acc'.1, Except.ok acc'.2, reqs + 1⟩
    | r' + 1 =>
      if resp.data.length = 0 ∨ pageTotalPages page resp ≤ page then
        ⟨acc'.1, Except.ok acc'.2, reqs + 1⟩
      else
        hydrateGo fetch r' (page + 1) acc' (reqs + 1)

/-- Method `YampiSkuMap.hydrateOnce({pageStart, limit, maxPages})` acting on map `m`.
The `limit` query parameter only shapes the request URL and is omitted. -/
def hydrateOnce (fetch : FetchPages) (pageStart maxPages : Nat) (m : SkuMap) : HydrateResult :=
  hydrateGo fetch (maxPages - 1) pageStart (m, 0) 0

/-! Section: quote cache (`getFromCache` / `setCache` of the proxy server) -/

/-- A stored quote: `{ at: Date.now(), data }`. -/
structure CacheEntry (α : Type) where
  storedAt : Nat
  data : α
  deriving DecidableEq

/-- Function `getFromCache(key)`: `null` when missing; when
`Date.now() - at > TTL` the entry is deleted and `null` returned; otherwise
the stored data. Returns the read result and the cache afterwards. -/
def getFromCache {κ α : Type} [DecidableEq κ] (now ttl : Nat)
    (cache : List (κ × CacheEntry α)) (key : κ) :
    Option α × List (κ × CacheEntry α) :=
  match mget key cache with
  | none => (none, cache)
  | some item =>
    if ttl < now - item.storedAt then (none, mdel key cache)
    else (some item.data, cache)

/-- Function `setCache(key, data)`: store `{at: now, data}`, overwriting any prior
entry for the key. -/
def setCache {κ α : Type} [DecidableEq κ] (key : κ) (data : α) (now : Nat)
    (cache : List (κ × CacheEntry α)) : List (κ × CacheEntry α) :=
  mset key ⟨now, data⟩ cache

/-! Section: upstream quote call (`yampi.js`, `calcularFreteYampi`) -/

/-- The upstream HTTP response to the shipping-costs POST: `ok`/`status`,
the raw `text` body, and `json` — the payload after the `json?.data ?? json`
unwrapping performed on success. -/
structure FetchResp (α : Type) where
  ok : Bool
  status : Nat
  text : String
  json : α
  deriving DecidableEq

/-- Function `calcularFreteYampi`: on a non-ok response it throws
`Error("Yampi " + status + ": " + text)`; on success it returns the payload. -/
def calcularFreteYampi {α : Type} (resp : FetchResp α) : Except String α :=
  if resp.ok then Except.ok resp.json
  else Except.error ("Yampi " ++ toString resp.status ++ ": " ++ resp.text)

/-! Section: quote orchestrator (the `app.all(proxyPath)` handler) -/

/-- The configuration read from the environment at startup. -/
structure Config where
  secret : String
  disableSigCheck : Bool
  ttl : Nat

/-- The request after transport plumbing: the raw query (for the signature
check), the raw `cep` string, the optional `total`, and the item code and
quantity lists produced by `toArr`. -/
structure ProxyReq where
  query : List (String × String)
  cep : String
  total : Option Int
  skus : List String
  qtys : List Int

/-- The data serialized (stably, via `JSON.stringify` of a fixed-shape
object) into the cache key by `makeCacheKey({cep, ids, qtys, total})`. -/
structure CacheKeyData where
  cep : String
  ids : List Int
  qtys : List Int
  total : Option Int
  deriving DecidableEq

/-- A JSON response body: an error object or a data payload with the
optional `cached` flag. -/
inductive RespBody (α : Type) where
  | err (msg : String)
  | payload (data : α) (cached : Bool)
  deriving DecidableEq

/-- What one handler invocation produces: HTTP status, body, the quote cache
afterwards, and whether the upstream quote API was called. -/
structure HandlerOut (α : Type) where
  status : Nat
  body : RespBody α
  cache : List (CacheKeyData × CacheEntry α)
  upstreamCalled : Bool

/-- The id-resolution loop of the handler: a purely numeric code is used
directly (`Number(s)`); otherwise `skuMap.getId(s)` must give a truthy id —
`if (!id)` rejects both `undefined` and `0` — else the request is rejected
naming the offending code. -/
def resolveIds (m : SkuMap) : List String → Except String (List Int)
  | [] => Except.ok []
  | s :: rest =>
    if isAllDigits s then
      (resolveIds m rest).map (fun ids => (parseNat s : Int) :: ids)
    else
      match getId m s with
      | none => Except.error s
      | some id =>
        if id = 0 then Except.error s
        else (resolveIds m rest).map (fun ids => id :: ids)

/-- The `app.all(proxyPath)` handler: signature check (unless disabled),
CEP normalization and validation, item list validation, id resolution,
cache lookup, upstream call with caching of the result; any exception from
the upstream call is caught and answered with status 500. -/
def proxyHandler {α : Type} (hmac : String → String → String) (cfg : Config)
    (m : SkuMap) (cache : List (CacheKeyData × CacheEntry α)) (now : Nat)
    (upstream : FetchResp α) (req : ProxyReq) : HandlerOut α :=
  if cfg.disableSigCheck = false ∧ verifyShopifyProxy hmac req.query cfg.secret = false then
    ⟨401, RespBody.err "Invalid proxy signature", cache, false⟩
  else
    let cep := digitsOf req.cep
    if cep.length ≠ 8 then ⟨400, RespBody.err "CEP inválido", cache, false⟩
    else if req.skus.length = 0 ∨ req.skus.length ≠ req.qtys.length then
      ⟨400, RespBody.err "Itens ausentes ou mal formatados", cache, false⟩
    else
      match resolveIds m req.skus with
      | Except.error s =>
        ⟨400, RespBody.err ("SKU sem ID cadastrado na Yampi: " ++ s), cache, false⟩
      | Except.ok ids =>
        let key : CacheKeyData := ⟨cep, ids, req.qtys, req.total⟩
        let gc := getFromCache now cfg.ttl cache key
        match gc.1 with
        | some cdata => ⟨200, RespBody.payload cdata true, gc.2, false⟩
        | none =>
          match calcularFreteYampi upstream with
          | Except.error e => ⟨500, RespBody.err e, gc.2, true⟩
          | Except.ok fdata =>
            ⟨200, RespBody.payload fdata false, setCache key fdata now gc.2, true⟩

/-! Section: helper lemmas on the association-map operations -/

theorem mget_mdel {κ β : Type} [DecidableEq κ] (k k' : κ) (m : List (κ × β))
    (h : k ≠ k') : mget k' (mdel k m) = mget k' m := by
  induction m with
  | nil => rfl
  | cons kv rest ih =>
    by_cases hk : kv.1 = k
    · have hk' : ¬ kv.1 = k' := fun hc => h (hk.symm.trans hc)
      simp [mdel, mget, hk, hk', h, ih]
    · by_cases hk' : kv.1 = k'
      · simp [mdel, mget, hk, hk', Ne.symm h]
      · simp [mdel, mget, hk, hk', ih]

theorem mget_mset {κ β : Type} [DecidableEq κ] (k k' : κ) (v : β) (m : List (κ × β)) :
    mget k' (mset k v m) = if k = k' then some v else mget k' m := by
  by_cases h : k = k'
  · simp [mset, mget, h]
  · simp [mset, mget, h, mget_mdel k k' m h]

theorem mget_isSome_mset {κ β : Type} [DecidableEq κ] (k k' : κ) (v : β) (m : List (κ × β))
    (h : (mget k' m).isSome = true) : (mget k' (mset k v m)).isSome = true := by
  rw [mget_mset]
  split
  · rfl
  · exact h

theorem mget_isSome_writeSku (m : SkuMap) (key : String) (id : Int) (k : String)
    (h : (mget k m).isSome = true) : (mget k (writeSku m key id)).isSome = true := by
  unfold writeSku
  exact mget_isSome_mset _ _ _ _ (mget_isSome_mset _ _ _ _ (mget_isSome_mset _ _ _ _ h))

theorem mget_isSome_processSkus (l : List SkuRec) (acc : SkuMap × Nat) (k : String)
    (h : (mget k acc.1).isSome = true) : (mget k (processSkus acc l).1).isSome = true := by
  induction l generalizing acc with
  | nil => simpa [processSkus] using h
  | cons s rest ih =>
    unfold processSkus
    cases hs : acceptSku s with
    | none => exact ih acc h
    | some ki => exact ih _ (mget_isSome_writeSku _ _ _ _ h)

theorem mget_isSome_processProducts (l : List Product) (acc : SkuMap × Nat) (k : String)
    (h : (mget k acc.1).isSome = true) : (mget k (processProducts acc l).1).isSome = true := by
  induction l generalizing acc with
  | nil => simpa [processProducts] using h
  | cons p rest ih =>
    unfold processProducts
    exact ih _ (mget_isSome_processSkus _ _ _ h)

theorem mget_isSome_hydrateGo (fetch : FetchPages) (r page : Nat) (acc : SkuMap × Nat)
    (reqs : Nat) (k : String) (h : (mget k acc.1).isSome = true) :
    (mget k (hydrateGo fetch r page acc reqs).map).isSome = true := by
  induction r generalizing page acc reqs with
  | zero =>
    unfold hydrateGo
    cases hf : fetch page with
    | error e => simpa using h
    | ok resp => simpa using mget_isSome_processProducts _ _ _ h
  | succ r' ih =>
    unfold hydrateGo
    cases hf : fetch page with
    | error e => simpa using h
    | ok resp =>
      simp only []
      split
      · simpa using mget_isSome_processProducts _ _ _ h
      · exact ih (page + 1) _ (reqs + 1) (mget_isSome_processProducts _ _ _ h)

theorem hydrateGo_requests_le (fetch : FetchPages) (r page : Nat) (acc : SkuMap × Nat)
    (reqs : Nat) : (hydrateGo fetch r page acc reqs).requests ≤ reqs + r + 1 := by
  induction r generalizing page acc reqs with
  | zero =>
    unfold hydrateGo
    cases hf : fetch page <;> simp
  | succ r' ih =>
    unfold hydrateGo
    cases hf : fetch page with
    | error e => simp
    | ok resp =>
      simp only []
      split
      · simp
      · have := ih (page + 1) (processProducts acc resp.data) (reqs + 1)
        omega

/-! Section: claim theorems -/

/-- C1: for every parameter mapping and secret, `verifyShopifyProxy` returns
false — and, being a total function, never throws — when the secret is
empty/absent or the `signature` field is missing; otherwise it returns true
iff the lowercase hex HMAC-SHA256 keyed by the secret (here the abstract
`hmac`, assumed to produce non-empty digests, as a 64-char hex digest is) of
the remaining parameters rendered as `key=value` pairs sorted by key and
concatenated with no separator exactly equals the excluded signature value. -/
theorem verifyShopifyProxy_contract (hmac : String → String → String)
    (hne : ∀ s m, hmac s m ≠ "") (query : List (String × String)) (secret : String) :
    (secret = "" → verifyShopifyProxy hmac query secret = false) ∧
    (mget "signature" query = none → verifyShopifyProxy hmac query secret = false) ∧
    (∀ sig, secret ≠ "" → mget "signature" query = some sig →
      (verifyShopifyProxy hmac query secret = true ↔
        hmac secret (proxyBase (query.filter (fun kv => kv.1 ≠ "signature"))) = sig)) := by
  refine ⟨fun h => by simp [verifyShopifyProxy, h], fun h => ?_, fun sig hs hq => ?_⟩
  · unfold verifyShopifyProxy
    rw [h]
    simp
  · unfold verifyShopifyProxy
    rw [hq, if_neg hs]
    by_cases hsig : sig = ""
    · subst hsig
      simpa using fun h => absurd h (hne _ _)
    · simp [hsig]

/-- Witness for C1 at a concrete query and secret. -/
theorem verifyShopifyProxy_contract_witness :
    verifyShopifyProxy (fun _ _ => "deadbeef") [("signature", "deadbeef"), ("a", "1")] "s"
      = true :=
  ((verifyShopifyProxy_contract (fun _ _ => "deadbeef")
      (by intro _ _; change ("deadbeef" : String) ≠ ""; decide)
      [("signature", "deadbeef"), ("a", "1")] "s").2.2
    "deadbeef" (by decide) (by decide)).mpr rfl

/-- C2 (amended): `set(key, payload)` immediately followed by `get(key)`
returns the payload unchanged while `now - storedAt ≤ TTL`, and returns
absent once `now - storedAt > TTL` (the expired entry is also deleted on
that read). The boundary differs from the claim as stated: at age exactly
TTL the entry is still served, because the code expires on `age > TTL`. -/
theorem cache_roundtrip_ttl {κ α : Type} [DecidableEq κ] (key : κ) (payload : α)
    (cache : List (κ × CacheEntry α)) (t0 now ttl : Nat) :
    (now - t0 ≤ ttl →
      (getFromCache now ttl (setCache key payload t0 cache) key).1 = some payload) ∧
    (ttl < now - t0 →
      (getFromCache now ttl (setCache key payload t0 cache) key).1 = none) := by
  have hm : mget key (setCache key payload t0 cache) = some ⟨t0, payload⟩ := by
    simp [setCache, mget_mset]
  constructor
  · intro h
    simp [getFromCache, hm, Nat.not_lt.mpr h]
  · intro h
    simp [getFromCache, hm, h]

/-- Witness for C2 at a concrete key, payload and clock. -/
theorem cache_roundtrip_ttl_witness :
    (getFromCache 3 5 (setCache "k" (7 : Nat) 0 []) "k").1 = some 7 ∧
    (getFromCache 9 5 (setCache "k" (7 : Nat) 0 []) "k").1 = none :=
  ⟨(cache_roundtrip_ttl "k" 7 [] 0 3 5).1 (by decide),
   (cache_roundtrip_ttl "k" 7 [] 0 9 5).2 (by decide)⟩

/-- C2 counterexample: with TTL 5, an entry stored at time 0 and read at
time 5 has age `5 - 0 = 5`, which is not less than the TTL, yet
`getFromCache` still returns the payload — refuting "whenever the entry's
age is not less than TTL, get(key) returns absent". -/
theorem cache_ttl_boundary_counterexample :
    ¬ ((5 : Nat) - 0 < 5) ∧
    (getFromCache 5 5 (setCache "k" (7 : Nat) 0 []) "k").1 = some 7 := by
  exact ⟨by decide, by decide⟩

/-- C3: catalog lookup is case-insensitive and trims its input: after the
hydration of an upstream SKU with code "ABC-1" and id 42, `getId` of
"abc-1", "ABC-1" and " Abc-1 " all return 42; and in general `getId` tries
the exact trimmed form, then the upper-cased form, then the lower-cased
form, returning absent when none match. -/
theorem getId_case_insensitive :
    (∀ x ∈ (["abc-1", "ABC-1", " Abc-1 "] : List String),
      getId (hydrateOnce (fun _ => Except.ok ⟨[⟨[⟨some "ABC-1", some 42⟩]⟩], some 1⟩)
        1 1000 []).map x = some 42) ∧
    (∀ (m : SkuMap) (s : String) (v : Int), s ≠ "" →
      mget (jsTrim s) m = some v → getId m s = some v) ∧
    (∀ (m : SkuMap) (s : String) (v : Int), s ≠ "" →
      mget (jsTrim s) m = none → mget (jsToUpper (jsTrim s)) m = some v →
      getId m s = some v) ∧
    (∀ (m : SkuMap) (s : String) (v : Int), s ≠ "" →
      mget (jsTrim s) m = none → mget (jsToUpper (jsTrim s)) m = none →
      mget (jsToLower (jsTrim s)) m = some v → getId m s = some v) ∧
    (∀ (m : SkuMap) (s : String),
      mget (jsTrim s) m = none → mget (jsToUpper (jsTrim s)) m = none →
      mget (jsToLower (jsTrim s)) m = none → getId m s = none) := by
  refine ⟨by decide, ?_, ?_, ?_, ?_⟩
  · intro m s v hs h1
    simp [getId, hs, h1, Option.orElse]
  · intro m s v hs h1 h2
    simp [getId, hs, h1, h2, Option.orElse]
  · intro m s v hs h1 h2 h3
    simp [getId, hs, h1, h2, h3, Option.orElse]
  · intro m s h1 h2 h3
    by_cases hs : s = ""
    · simp [getId, hs]
    · simp [getId, hs, h1, h2, h3, Option.orElse]

/-- Witness for C3 at a concrete map and lookup string. -/
theorem getId_case_insensitive_witness :
    getId [("a", (5 : Int))] "a" = some 5 :=
  getId_case_insensitive.2.1 [("a", 5)] "a" 5 (by decide) (by decide)

/-- C5: hydration is monotonically additive under partial failure: for every
page-response sequence — including ones where a page request throws — every
key queryable in the map before `hydrateOnce` is still queryable in the map
afterwards, and (second conjunct, which applies to every intermediate loop
state, hence to the state holding the writes of the earlier pages) the loop
never removes a key; the mapping only ever gains entries. -/
theorem hydrate_partial_failure_monotone :
    (∀ (fetch : FetchPages) (pageStart maxPages : Nat) (m : SkuMap) (k : String),
      (mget k m).isSome = true →
      (mget k (hydrateOnce fetch pageStart maxPages m).map).isSome = true) ∧
    (∀ (fetch : FetchPages) (r page : Nat) (acc : SkuMap × Nat) (reqs : Nat) (k : String),
      (mget k acc.1).isSome = true →
      (mget k (hydrateGo fetch r page acc reqs).map).isSome = true) :=
  ⟨fun fetch pageStart maxPages m k h =>
    mget_isSome_hydrateGo fetch (maxPages - 1) pageStart (m, 0) 0 k h,
   fun fetch r page acc reqs k h => mget_isSome_hydrateGo fetch r page acc reqs k h⟩

/-- Witness for C5: an entry present before a failing hydration attempt
survives it, and an entry written by page 1 survives the failure of the
page-2 request. -/
theorem hydrate_partial_failure_monotone_witness :
    (mget "A" (hydrateOnce (fun _ => Except.error "boom") 1 1000
      [("A", (1 : Int))]).map).isSome = true ∧
    (mget "AAA" (hydrateGo
      (fun p => if p = 1 then Except.ok ⟨[⟨[⟨some "AAA", some 7⟩]⟩], some 3⟩
                else Except.error "boom")
      997 2 (writeSku [] "AAA" 7, 1) 1).map).isSome = true :=
  ⟨hydrate_partial_failure_monotone.1 _ 1 1000 _ "A" (by decide),
   hydrate_partial_failure_monotone.2 _ 997 2 _ 1 "AAA" (by decide)⟩

/-- C6: the paginated hydration loop terminates on every response sequence
(`hydrateGo` is total, by structural recursion on the remaining page
budget); it stops on a page with no items, when the page number reaches the
reported total page count, or at the `maxPages` safety cap, so whenever the
cap allows at least one page at most `maxPages` page requests are issued —
and a first page with no items means exactly one request. -/
theorem hydrate_pagination_bounded (fetch : FetchPages) (pageStart maxPages : Nat)
    (m : SkuMap) (h : 1 ≤ maxPages) :
    (hydrateOnce fetch pageStart maxPages m).requests ≤ maxPages ∧
    (∀ resp, fetch pageStart = Except.ok resp → resp.data = [] →
      (hydrateOnce fetch pageStart maxPages m).requests = 1) := by
  constructor
  · have := hydrateGo_requests_le fetch (maxPages - 1) pageStart (m, 0) 0
    unfold hydrateOnce
    omega
  · intro resp hresp hdata
    unfold hydrateOnce hydrateGo
    rw [hresp]
    cases hmp : maxPages - 1 with
    | zero => simp
    | succ r' => simp [hdata]

/-- Witness for C6 at a concrete single-empty-page upstream. -/
theorem hydrate_pagination_bounded_witness :
    (hydrateOnce (fun _ => Except.ok ⟨[], none⟩) 1 1000 []).requests ≤ 1000 ∧
    (hydrateOnce (fun _ => Except.ok ⟨[], none⟩) 1 1000 []).requests = 1 :=
  ⟨(hydrate_pagination_bounded _ 1 1000 [] (by decide)).1,
   (hydrate_pagination_bounded _ 1 1000 [] (by decide)).2 ⟨[], none⟩ rfl rfl⟩

/-- C7: when the signature step passes (or is disabled by configuration), a
request whose postal code after stripping non-digit characters is not
exactly 8 digits is answered with status 400 ("CEP inválido"), no upstream
call is made, and the quote cache is left unchanged. -/
theorem invalid_cep_rejected {α : Type} (hmac : String → String → String) (cfg : Config)
    (m : SkuMap) (cache : List (CacheKeyData × CacheEntry α)) (now : Nat)
    (upstream : FetchResp α) (req : ProxyReq)
    (hsig : cfg.disableSigCheck = true ∨ verifyShopifyProxy hmac req.query cfg.secret = true)
    (hcep : (digitsOf req.cep).length ≠ 8) :
    proxyHandler hmac cfg m cache now upstream req =
      ⟨400, RespBody.err "CEP inválido", cache, false⟩ := by
  have hsig' : ¬ (cfg.disableSigCheck = false ∧
      verifyShopifyProxy hmac req.query cfg.secret = false) := by
    rcases hsig with h | h <;> simp [h]
  unfold proxyHandler
  rw [if_neg hsig']
  simp [hcep]

/-- Witness for C7 at a concrete 7-digit postal code. -/
theorem invalid_cep_rejected_witness :
    proxyHandler (fun _ _ => "") ⟨"", true, 300000⟩ []
      ([] : List (CacheKeyData × CacheEntry Nat)) 0
      ⟨true, 200, "", 0⟩ ⟨[], "1234-567", none, ["7"], [1]⟩ =
      ⟨400, RespBody.err "CEP inválido", [], false⟩ :=
  invalid_cep_rejected _ _ _ _ _ _ _ (Or.inl rfl) (by decide)

/-- C4 (amended): on a cache miss, a non-success upstream quote response
makes the handler respond with status 500 — not 502 as the claim states —
carrying the upstream failure detail `"Yampi " ++ status ++ ": " ++ body`;
the upstream was called once. -/
theorem upstream_failure_status_500 {α : Type} (hmac : String → String → String)
    (cfg : Config) (m : SkuMap) (cache : List (CacheKeyData × CacheEntry α)) (now : Nat)
    (upstream : FetchResp α) (req : ProxyReq) (ids : List Int)
    (hsig : cfg.disableSigCheck = true ∨ verifyShopifyProxy hmac req.query cfg.secret = true)
    (hcep : (digitsOf req.cep).length = 8)
    (hn : req.skus.length ≠ 0) (hq : req.skus.length = req.qtys.length)
    (hres : resolveIds m req.skus = Except.ok ids)
    (hmiss : (getFromCache now cfg.ttl cache
      ⟨digitsOf req.cep, ids, req.qtys, req.total⟩).1 = none)
    (hup : upstream.ok = false) :
    proxyHandler hmac cfg m cache now upstream req =
      ⟨500, RespBody.err ("Yampi " ++ toString upstream.status ++ ": " ++ upstream.text),
        (getFromCache now cfg.ttl cache ⟨digitsOf req.cep, ids, req.qtys, req.total⟩).2,
        true⟩ := by
  have hsig' : ¬ (cfg.disableSigCheck = false ∧
      verifyShopifyProxy hmac req.query cfg.secret = false) := by
    rcases hsig with h | h <;> simp [h]
  have hcal : calcularFreteYampi upstream =
      Except.error ("Yampi " ++ toString upstream.status ++ ": " ++ upstream.text) := by
    simp [calcularFreteYampi, hup]
  have hlen : ¬ (req.skus.length = 0 ∨ req.skus.length ≠ req.qtys.length) := by
    push_neg
    exact ⟨hn, hq⟩
  unfold proxyHandler
  rw [if_neg hsig']
  simp only [hcep, ne_eq, not_true_eq_false, if_false, if_neg hlen, hres, hmiss, hcal]

/-- Witness for C4 at a concrete cache-miss request and failing upstream. -/
theorem upstream_failure_status_500_witness :
    proxyHandler (fun _ _ => "") ⟨"", true, 300000⟩ []
      ([] : List (CacheKeyData × CacheEntry Nat)) 0
      ⟨false, 503, "bad", 0⟩ ⟨[], "01001-000", none, ["7"], [1]⟩ =
      ⟨500, RespBody.err ("Yampi " ++ toString (503 : Nat) ++ ": " ++ "bad"),
        [], true⟩ :=
  upstream_failure_status_500 _ _ _ _ _ _ _ [7] (Or.inl rfl) (by decide)
    (by decide) (by decide) rfl rfl rfl

/-- C4 counterexample: at a concrete cache-miss request whose upstream
response is a failure (status 503), the handler's response status is 500,
not the 502 the claim states. -/
theorem upstream_failure_not_502_counterexample :
    (proxyHandler (fun _ _ => "") ⟨"", true, 300000⟩ []
      ([] : List (CacheKeyData × CacheEntry Nat)) 0
      ⟨false, 503, "bad", 0⟩ ⟨[], "01001-000", none, ["7"], [1]⟩).status = 500 ∧
    ¬ ((proxyHandler (fun _ _ => "") ⟨"", true, 300000⟩ []
      ([] : List (CacheKeyData × CacheEntry Nat)) 0
      ⟨false, 503, "bad", 0⟩ ⟨[], "01001-000", none, ["7"], [1]⟩).status = 502) :=
  ⟨by decide, by decide⟩

/-- C10: at the resolution step a catalog result of 0 is treated exactly
like an absent mapping — for a non-numeric code, `getId` returning 0 and
`getId` returning absent both make resolution fail naming that code — and a
resolution failure makes the handler (signature and earlier inputs valid)
respond 400 naming the code, with no upstream call and the cache unchanged,
rather than passing 0 upstream. -/
theorem zero_id_treated_as_absent {α : Type} (m : SkuMap) (s : String)
    (rest : List String) (hnum : isAllDigits s = false) :
    (getId m s = some 0 → resolveIds m (s :: rest) = Except.error s) ∧
    (getId m s = none → resolveIds m (s :: rest) = Except.error s) ∧
    (∀ (hmac : String → String → String) (cfg : Config)
      (cache : List (CacheKeyData × CacheEntry α)) (now : Nat) (upstream : FetchResp α)
      (req : ProxyReq),
      (cfg.disableSigCheck = true ∨ verifyShopifyProxy hmac req.query cfg.secret = true) →
      (digitsOf req.cep).length = 8 →
      req.skus.length ≠ 0 → req.skus.length = req.qtys.length →
      resolveIds m req.skus = Except.error s →
      proxyHandler hmac cfg m cache now upstream req =
        ⟨400, RespBody.err ("SKU sem ID cadastrado na Yampi: " ++ s), cache, false⟩) := by
  refine ⟨fun h => ?_, fun h => ?_, ?_⟩
  · simp [resolveIds, hnum, h]
  · simp [resolveIds, hnum, h]
  · intro hmac cfg cache now upstream req hsig hcep hn hq hres
    have hsig' : ¬ (cfg.disableSigCheck = false ∧
        verifyShopifyProxy hmac req.query cfg.secret = false) := by
      rcases hsig with h | h <;> simp [h]
    have hlen : ¬ (req.skus.length = 0 ∨ req.skus.length ≠ req.qtys.length) := by
      push_neg
      exact ⟨hn, hq⟩
    unfold proxyHandler
    rw [if_neg hsig']
    simp only [hcep, ne_eq, not_true_eq_false, if_false, if_neg hlen, hres]

/-- Witness for C10: a non-numeric code mapped to 0 in the catalog is
rejected with 400 naming the code, exactly as an unmapped one. -/
theorem zero_id_treated_as_absent_witness :
    resolveIds [("zero", 0)] ["zero"] = Except.error "zero" ∧
    proxyHandler (fun _ _ => "") ⟨"", true, 300000⟩ [("zero", 0)]
      ([] : List (CacheKeyData × CacheEntry Nat)) 0
      ⟨true, 200, "", 0⟩ ⟨[], "01001-000", none, ["zero"], [1]⟩ =
      ⟨400, RespBody.err ("SKU sem ID cadastrado na Yampi: " ++ "zero"), [], false⟩ :=
  ⟨(zero_id_treated_as_absent (α := Nat) [("zero", 0)] "zero" [] (by decide)).1 (by decide),
   (zero_id_treated_as_absent [("zero", 0)] "zero" [] (by decide)).2.2
     _ _ _ _ _ _ (Or.inl rfl) (by decide) (by decide) (by decide) rfl⟩

/-- C8 (amended): a hydration write stores the entry under all three key
forms — the trimmed code, its upper-cased form and its lower-cased form —
but a seed-load write (either form of the seed file) stores the entry only
under the trimmed original code: it touches no key other than the trimmed
codes of its records, so no upper/lower form of a mixed-case code is
written (see the counterexample). -/
theorem catalog_write_key_forms :
    (∀ (m : SkuMap) (key : String) (id : Int),
      mget key (writeSku m key id) = some id ∧
      mget (jsToUpper key) (writeSku m key id) = some id ∧
      mget (jsToLower key) (writeSku m key id) = some id) ∧
    (∀ (raw : List SeedRec) (m : SkuMap) (k : String),
      mget k (seedFromList raw m) ≠ mget k m → ∃ r ∈ raw, k = jsTrim r.sku) ∧
    (∀ (raw : List (String × Int)) (m : SkuMap) (k : String),
      mget k (seedFromObj raw m) ≠ mget k m → ∃ kv ∈ raw, k = jsTrim kv.1) := by
  refine ⟨?_, ?_, ?_⟩
  · intro m key id
    refine ⟨?_, ?_, ?_⟩ <;>
      · unfold writeSku
        rw [mget_mset]
        split
        · rfl
        · rw [mget_mset]
          split
          · rfl
          · rw [mget_mset]
            simp_all
  · intro raw
    induction raw with
    | nil => intro m k h; simp [seedFromList] at h
    | cons r rl ih =>
      intro m k h
      by_cases hk : k = jsTrim r.sku
      · exact ⟨r, List.mem_cons_self r rl, hk⟩
      · rw [seedFromList, List.foldl_cons] at h
        by_cases hc : r.sku ≠ "" ∧ r.id ≠ 0
        · rw [if_pos hc] at h
          have hre : mget k (mset (jsTrim r.sku) r.id m) = mget k m := by
            rw [mget_mset, if_neg (fun hx => hk hx.symm)]
          have h' : mget k (seedFromList rl (mset (jsTrim r.sku) r.id m)) ≠
              mget k (mset (jsTrim r.sku) r.id m) := by
            rw [hre]; exact h
          obtain ⟨r', hr', hk'⟩ := ih (mset (jsTrim r.sku) r.id m) k h'
          exact ⟨r', List.mem_cons_of_mem r hr', hk'⟩
        · rw [if_neg hc] at h
          obtain ⟨r', hr', hk'⟩ := ih m k h
          exact ⟨r', List.mem_cons_of_mem r hr', hk'⟩
  · intro raw
    induction raw with
    | nil => intro m k h; simp [seedFromObj] at h
    | cons kv kvl ih =>
      intro m k h
      by_cases hk : k = jsTrim kv.1
      · exact ⟨kv, List.mem_cons_self kv kvl, hk⟩
      · rw [seedFromObj, List.foldl_cons] at h
        have hre : mget k (mset (jsTrim kv.1) kv.2 m) = mget k m := by
          rw [mget_mset, if_neg (fun hx => hk hx.symm)]
        have h' : mget k (seedFromObj kvl (mset (jsTrim kv.1) kv.2 m)) ≠
            mget k (mset (jsTrim kv.1) kv.2 m) := by
          rw [hre]; exact h
        obtain ⟨kv', hkv', hk'⟩ := ih (mset (jsTrim kv.1) kv.2 m) k h'
        exact ⟨kv', List.mem_cons_of_mem kv hkv', hk'⟩

/-- Witness for C8: the three key forms written by hydration at a concrete
mixed-case code, and the seed-write locality at a concrete seed record. -/
theorem catalog_write_key_forms_witness :
    (mget "Abc-1" (writeSku [] "Abc-1" 42) = some 42 ∧
     mget "ABC-1" (writeSku [] "Abc-1" 42) = some 42 ∧
     mget "abc-1" (writeSku [] "Abc-1" 42) = some 42) ∧
    (∃ r ∈ ([⟨"Abc", 5⟩] : List SeedRec), "Abc" = jsTrim r.sku) := by
  have h := catalog_write_key_forms.1 [] "Abc-1" 42
  refine ⟨⟨h.1, ?_, ?_⟩, catalog_write_key_forms.2.1 [⟨"Abc", 5⟩] [] "Abc" (by decide)⟩
  · have := h.2.1
    simpa using this
  · have := h.2.2
    simpa using this

/-- C8 counterexample: the list-form seed load writes the record
(sku "Abc", id 5) only under "Abc": neither the upper-cased key "ABC" nor
the lower-cased key "abc" is stored — and `getId` of "ABC" on the seeded
map finds nothing — refuting "every write, whether from the seed load or
from hydration, stores the entry under three key forms". -/
theorem seed_write_single_form_counterexample :
    mget "Abc" (seedFromList [⟨"Abc", 5⟩] []) = some 5 ∧
    mget "ABC" (seedFromList [⟨"Abc", 5⟩] []) = none ∧
    mget "abc" (seedFromList [⟨"Abc", 5⟩] []) = none ∧
    getId (seedFromList [⟨"Abc", 5⟩] []) "ABC" = none :=
  ⟨by decide, by decide, by decide, by decide⟩

/-- A catalog map whose stored internal ids are all positive. -/
def valuesPos (m : SkuMap) : Prop := ∀ k v, mget k m = some v → 0 < v

theorem valuesPos_mset (m : SkuMap) (k : String) (v : Int) (hv : 0 < v)
    (hm : valuesPos m) : valuesPos (mset k v m) := by
  intro k' v' h
  rw [mget_mset] at h
  split at h
  · cases h
    exact hv
  · exact hm k' v' h

theorem valuesPos_writeSku (m : SkuMap) (key : String) (id : Int) (hid : 0 < id)
    (hm : valuesPos m) : valuesPos (writeSku m key id) :=
  valuesPos_mset _ _ _ hid (valuesPos_mset _ _ _ hid (valuesPos_mset _ _ _ hid hm))

theorem valuesPos_processSkus (l : List SkuRec) (acc : SkuMap × Nat)
    (hl : ∀ s ∈ l, ∀ ki, acceptSku s = some ki → 0 < ki.2)
    (hm : valuesPos acc.1) : valuesPos (processSkus acc l).1 := by
  induction l generalizing acc with
  | nil => simpa [processSkus] using hm
  | cons s sl ih =>
    unfold processSkus
    cases hs : acceptSku s with
    | none => exact ih acc (fun x hx => hl x (List.mem_cons_of_mem s hx)) hm
    | some ki =>
      exact ih _ (fun x hx => hl x (List.mem_cons_of_mem s hx))
        (valuesPos_writeSku _ _ _ (hl s (List.mem_cons_self s sl) ki hs) hm)

theorem valuesPos_processProducts (l : List Product) (acc : SkuMap × Nat)
    (hl : ∀ p ∈ l, ∀ s ∈ p.skus, ∀ ki, acceptSku s = some ki → 0 < ki.2)
    (hm : valuesPos acc.1) : valuesPos (processProducts acc l).1 := by
  induction l generalizing acc with
  | nil => simpa [processProducts] using hm
  | cons p pl ih =>
    unfold processProducts
    exact ih _ (fun x hx => hl x (List.mem_cons_of_mem p hx))
      (valuesPos_processSkus _ _ (hl p (List.mem_cons_self p pl)) hm)

theorem valuesPos_hydrateGo (fetch : FetchPages) (r page : Nat) (acc : SkuMap × Nat)
    (reqs : Nat)
    (hf : ∀ pg resp, fetch pg = Except.ok resp →
      ∀ p ∈ resp.data, ∀ s ∈ p.skus, ∀ ki, acceptSku s = some ki → 0 < ki.2)
    (hm : valuesPos acc.1) : valuesPos (hydrateGo fetch r page acc reqs).map := by
  induction r generalizing page acc reqs with
  | zero =>
    unfold hydrateGo
    cases hfp : fetch page with
    | error e => simpa using hm
    | ok resp => simpa using valuesPos_processProducts _ _ (hf page resp hfp) hm
  | succ r' ih =>
    unfold hydrateGo
    cases hfp : fetch page with
    | error e => simpa using hm
    | ok resp =>
      simp only []
      split
      · simpa using valuesPos_processProducts _ _ (hf page resp hfp) hm
      · exact ih (page + 1) _ (reqs + 1)
          (valuesPos_processProducts _ _ (hf page resp hfp) hm)

/-- C9 (amended): the catalog write paths preserve positivity — whenever
every record accepted by a write condition carries a positive id, and the
existing values are positive, every stored internalId is positive — but the
write conditions alone do not enforce positivity: hydration's acceptance
test (non-empty code, non-null id) admits id 0, which is then stored (see
the counterexample). -/
theorem catalog_values_positive_preserved :
    (∀ (raw : List SeedRec) (m : SkuMap),
      (∀ r ∈ raw, r.sku ≠ "" → r.id ≠ 0 → 0 < r.id) → valuesPos m →
      valuesPos (seedFromList raw m)) ∧
    (∀ (raw : List (String × Int)) (m : SkuMap),
      (∀ kv ∈ raw, 0 < kv.2) → valuesPos m → valuesPos (seedFromObj raw m)) ∧
    (∀ (fetch : FetchPages) (pageStart maxPages : Nat) (m : SkuMap),
      (∀ pg resp, fetch pg = Except.ok resp →
        ∀ p ∈ resp.data, ∀ s ∈ p.skus, ∀ ki, acceptSku s = some ki → 0 < ki.2) →
      valuesPos m → valuesPos (hydrateOnce fetch pageStart maxPages m).map) := by
  refine ⟨?_, ?_, ?_⟩
  · intro raw
    induction raw with
    | nil => intro m _ hm; simpa [seedFromList] using hm
    | cons r rl ih =>
      intro m hpos hm
      rw [seedFromList, List.foldl_cons]
      by_cases hc : r.sku ≠ "" ∧ r.id ≠ 0
      · rw [if_pos hc]
        exact ih _ (fun x hx => hpos x (List.mem_cons_of_mem r hx))
          (valuesPos_mset _ _ _ (hpos r (List.mem_cons_self r rl) hc.1 hc.2) hm)
      · rw [if_neg hc]
        exact ih _ (fun x hx => hpos x (List.mem_cons_of_mem r hx)) hm
  · intro raw
    induction raw with
    | nil => intro m _ hm; simpa [seedFromObj] using hm
    | cons kv kvl ih =>
      intro m hpos hm
      rw [seedFromObj, List.foldl_cons]
      exact ih _ (fun x hx => hpos x (List.mem_cons_of_mem kv hx))
        (valuesPos_mset _ _ _ (hpos kv (List.mem_cons_self kv kvl)) hm)
  · intro fetch pageStart maxPages m hf hm
    exact valuesPos_hydrateGo fetch (maxPages - 1) pageStart (m, 0) 0 hf hm

/-- Witness for C9 at concrete seed data and a concrete one-page upstream
whose accepted ids are positive. -/
theorem catalog_values_positive_preserved_witness :
    valuesPos (seedFromList [⟨"A", 3⟩] []) ∧
    valuesPos (hydrateOnce (fun _ => Except.ok ⟨[⟨[⟨some "B", some 9⟩]⟩], some 1⟩)
      1 1000 []).map :=
  ⟨catalog_values_positive_preserved.1 [⟨"A", 3⟩] [] (by decide)
      (fun k v h => by simp [mget] at h),
   catalog_values_positive_preserved.2.2 _ 1 1000 []
      (by intro pg resp h; cases h; decide)
      (fun k v h => by simp [mget] at h)⟩

/-- C9 counterexample: the upstream SKU record (sku "X", id 0) passes
hydration's write condition (non-empty code, non-null id) and hydration
stores internalId 0, which is not a positive integer — refuting "every
internalId value stored is a positive integer, for every record accepted by
the write condition". -/
theorem hydration_stores_zero_counterexample :
    acceptSku ⟨some "X", some 0⟩ = some ("X", 0) ∧
    mget "X" (hydrateOnce (fun _ => Except.ok ⟨[⟨[⟨some "X", some 0⟩]⟩], some 1⟩)
      1 1000 []).map = some 0 ∧
    ¬ (0 < (0 : Int)) :=
  ⟨by decide, by decide, by decide⟩

end FreteYampi
